import Mathlib

/-!
Channel locator encoding and channel reservation surface

A shallow embedding of `lnwire/channel_id.go` and `wallet/reservation.go`.

* Go machine integers are natural numbers; every conversion `uintN(e)` and every
  operation that can overflow carries an explicit `% 2 ^ N`.
* A Go pointer or slice is an `Option`: `none` is `nil`.
* A call that does not return normally (a run-time panic, or a goroutine parked
  forever) is the `error` branch of `Except Abort`.
-/

/-! ## lnwire: the compact channel identifier -/

namespace lnwire

/-- The struct `ChannelID`. `BlockHeight` and `TxIndex` are `uint32` fields that the
source documents as limited to 3 bytes, `TxPosition` is a `uint16`. -/
structure ChannelID where
  BlockHeight : Nat
  TxIndex : Nat
  TxPosition : Nat
deriving DecidableEq, Repr

/-- The values a Go `ChannelID` can hold: two `uint32` fields and one `uint16`. -/
def ChannelID.Valid (c : ChannelID) : Prop :=
  c.BlockHeight < 2 ^ 32 ∧ c.TxIndex < 2 ^ 32 ∧ c.TxPosition < 2 ^ 16

/-- The documented range: block height and transaction index fit in 3 bytes. -/
def ChannelID.InRange (c : ChannelID) : Prop :=
  c.BlockHeight < 2 ^ 24 ∧ c.TxIndex < 2 ^ 24 ∧ c.TxPosition < 2 ^ 16

/-- The function `NewChanIDFromInt(chanID uint64) ChannelID`:
`uint32(chanID >> 40)`, `uint32(chanID>>16) & 0xFFFFFF`, `uint16(chanID)`. -/
def NewChanIDFromInt (chanID : Nat) : ChannelID :=
  { BlockHeight := (chanID >>> 40) % 2 ^ 32
    TxIndex := ((chanID >>> 16) % 2 ^ 32) &&& 0xFFFFFF
    TxPosition := chanID % 2 ^ 16 }

/-- The method `(c *ChannelID) ToUint64() uint64`:
`(uint64(c.BlockHeight) << 40) | (uint64(c.TxIndex) << 16) | uint64(c.TxPosition)`,
each shift wrapping at 64 bits. -/
def ChannelID.ToUint64 (c : ChannelID) : Nat :=
  (((c.BlockHeight % 2 ^ 64) <<< 40) % 2 ^ 64) ||| (((c.TxIndex % 2 ^ 64) <<< 16) % 2 ^ 64) |||
    (c.TxPosition % 2 ^ 64)

/-- Chain order on locators: block height first, then index in the block, then output. -/
def ChannelID.lexLt (a b : ChannelID) : Prop :=
  a.BlockHeight < b.BlockHeight ∨
    (a.BlockHeight = b.BlockHeight ∧
      (a.TxIndex < b.TxIndex ∨ (a.TxIndex = b.TxIndex ∧ a.TxPosition < b.TxPosition)))

end lnwire

/-! ## Go runtime values used by the wallet package -/

/-- A Go pointer: `none` is `nil`. -/
abbrev Ptr (α : Type) : Type := Option α

/-- A Go slice: `none` is the `nil` slice. -/
abbrev Slice (α : Type) : Type := Option (List α)

/-- The identity of a channel value returned by `make(chan T, n)`. -/
abbrev Chan : Type := Nat

/-- The ways a call can fail to return normally. -/
inductive Abort where
  /-- The panic "invalid memory address or nil pointer dereference". -/
  | nilDeref
  /-- The run-time error "sync: Unlock of unlocked RWMutex". -/
  | unlockOfUnlocked
  /-- The run-time error "sync: RUnlock of unlocked RWMutex". -/
  | rUnlockOfUnlocked
  /-- The goroutine is parked in `RLock` because a writer holds the lock. -/
  | blocksOnRLock
  /-- The goroutine is parked forever sending on a `nil` channel. -/
  | blocksOnNilChan
deriving DecidableEq, Repr

namespace sync

/-- The lock state of a Go `sync.RWMutex` as the library documents it: how many
readers hold it and whether a writer holds it. The zero value is unlocked. -/
structure RWMutex where
  readers : Nat
  writer : Bool
deriving DecidableEq, Repr

/-- The zero value of `sync.RWMutex`. -/
def RWMutex.zero : RWMutex := { readers := 0, writer := false }

/-- The method `RLock`: takes a read share; the caller is parked while a writer holds
the lock. -/
def RWMutex.RLock (m : RWMutex) : Except Abort RWMutex :=
  if m.writer then .error .blocksOnRLock else .ok { m with readers := m.readers + 1 }

/-- The method `RUnlock`: gives back one read share; a run-time error when the lock is
not read-locked. -/
def RWMutex.RUnlock (m : RWMutex) : Except Abort RWMutex :=
  if m.readers = 0 then .error .rUnlockOfUnlocked else .ok { m with readers := m.readers - 1 }

/-- The method `Unlock`: releases the write lock; a run-time error when the lock is not
locked for writing. -/
def RWMutex.Unlock (m : RWMutex) : Except Abort RWMutex :=
  if m.writer then .ok { m with writer := false } else .error .unlockOfUnlocked

end sync

/-- Values of the external `wire` package, kept as handles. -/
structure wire.TxIn where
  ref : Nat
deriving DecidableEq, Repr

/-- An external `wire.TxOut`. -/
structure wire.TxOut where
  ref : Nat
deriving DecidableEq, Repr

/-- An external `wire.MsgTx`. -/
structure wire.MsgTx where
  ref : Nat
deriving DecidableEq, Repr

/-- An external `wire.ShaHash`, a 32 byte array. -/
structure wire.ShaHash where
  bytes : List Nat
deriving DecidableEq, Repr

/-- The zero value of `wire.ShaHash`. -/
def wire.ShaHash.zero : wire.ShaHash := { bytes := List.replicate 32 0 }

/-- An external `btcutil.Tx`. -/
structure btcutil.Tx where
  ref : Nat
deriving DecidableEq, Repr

/-- An external `btcec.PrivateKey`. -/
structure btcec.PrivateKey where
  ref : Nat
deriving DecidableEq, Repr

/-- An external `btcec.PublicKey`. -/
structure btcec.PublicKey where
  ref : Nat
deriving DecidableEq, Repr

/-! ## wallet: the channel reservation -/

namespace wallet

/-- Modelled from the spec: the type `FundingType` is declared outside the given
sources; it is the "funding type/protocol variant" tag, an integer code. -/
abbrev FundingType : Type := Nat

/-- Modelled from the spec: the struct `LightningWallet` is declared outside the given
sources; the only field the reservation methods touch is `msgChan`, the single inbound
command queue of the Coordinator. -/
structure LightningWallet where
  msgChan : Ptr Chan
deriving DecidableEq, Repr

/-- Modelled from the spec: the struct `addCounterPartyFundsMsg` is declared outside the
given sources. Its first four fields are the ones the composite literal in `AddFunds`
names; `err` is the private response channel every command carries. -/
structure addCounterPartyFundsMsg where
  pendingFundingID : Nat
  theirInputs : Slice (Ptr wire.TxIn)
  theirChangeOutputs : Slice (Ptr wire.TxOut)
  theirKey : Ptr btcec.PublicKey
  err : Ptr Chan
deriving DecidableEq, Repr

/-- Modelled from the spec: the struct `addCounterPartySigsMsg` is declared outside the
given sources; the fields are those the composite literal in `CompleteReservation`
names. -/
structure addCounterPartySigsMsg where
  pendingFundingID : Nat
  theirSigs : Slice (Slice Nat)
  err : Ptr Chan
deriving DecidableEq, Repr

/-- Modelled from the spec: the struct `fundingReserveCancelMsg` is declared outside the
given sources; the fields are those the composite literal in `Cancel` names. -/
structure fundingReserveCancelMsg where
  pendingFundingID : Nat
  done : Ptr Chan
deriving DecidableEq, Repr

/-- A value sent into `msgChan`: a pointer to one of the three command structs. -/
inductive Msg where
  | addCounterPartyFunds (m : addCounterPartyFundsMsg)
  | addCounterPartySigs (m : addCounterPartySigsMsg)
  | fundingReserveCancel (m : fundingReserveCancelMsg)
deriving DecidableEq, Repr

/-- The reservation a command is addressed to. -/
def Msg.pendingFundingID : Msg → Nat
  | .addCounterPartyFunds m => m.pendingFundingID
  | .addCounterPartySigs m => m.pendingFundingID
  | .fundingReserveCancel m => m.pendingFundingID

/-- The response channel a command carries (`err` or `done`), `none` when it is `nil`. -/
def Msg.replyChan : Msg → Ptr Chan
  | .addCounterPartyFunds m => m.err
  | .addCounterPartySigs m => m.err
  | .fundingReserveCancel m => m.done

/-- The struct `ChannelReservation`, fields in source order; the embedded
`sync.RWMutex` is the field `RWMutex`. -/
structure ChannelReservation where
  FundingType : FundingType
  FundingAmount : Int
  ReserveAmount : Int
  MinFeePerKb : Int
  RWMutex : sync.RWMutex
  theirInputs : Slice (Ptr wire.TxIn)
  ourInputs : Slice (Ptr wire.TxIn)
  theirChange : Slice (Ptr wire.TxOut)
  ourChange : Slice (Ptr wire.TxOut)
  ourKey : Ptr btcec.PrivateKey
  theirKey : Ptr btcec.PublicKey
  theirSigs : Slice (Slice Nat)
  ourSigs : Slice (Slice Nat)
  normalizedTxID : wire.ShaHash
  fundingTx : Ptr wire.MsgTx
  completedFundingTx : Ptr btcutil.Tx
  reservationID : Nat
  wallet : Ptr LightningWallet
deriving DecidableEq, Repr

/-- The function `newChannelReservation`: five fields are set, every other field keeps
its zero value. -/
def newChannelReservation (t : FundingType) (fundingAmt : Int) (minFeeRate : Int)
    (wallet : Ptr LightningWallet) (id : Nat) : ChannelReservation :=
  { FundingType := t
    FundingAmount := fundingAmt
    ReserveAmount := 0
    MinFeePerKb := minFeeRate
    RWMutex := sync.RWMutex.zero
    theirInputs := none
    ourInputs := none
    theirChange := none
    ourChange := none
    ourKey := none
    theirKey := none
    theirSigs := none
    ourSigs := none
    normalizedTxID := wire.ShaHash.zero
    fundingTx := none
    completedFundingTx := none
    reservationID := id
    wallet := wallet }

/-- The end of a function body with one deferred call: the deferred call runs after the
return operands are evaluated, whether or not their evaluation panicked, and the
function returns normally only if neither aborted. A panic raised by the deferred call
is the one that surfaces. -/
def afterDeferred {α : Type} (operands : Except Abort α) (deferred : Except Abort sync.RWMutex) :
    Except Abort (α × sync.RWMutex) :=
  match deferred, operands with
  | .error e, _ => .error e
  | .ok _, .error e => .error e
  | .ok m, .ok v => .ok (v, m)

/-- The method `OurFunds`: `r.RLock()`, `defer r.Unlock()`, then
`return r.ourInputs, r.ourChange, r.ourKey.PubKey()`. The external method `PubKey` of
`btcec.PrivateKey` is the parameter `pubKey`. The result pairs the returned values with
the lock state left behind. -/
def ChannelReservation.OurFunds
    (pubKey : Ptr btcec.PrivateKey → Except Abort (Ptr btcec.PublicKey))
    (r : ChannelReservation) :
    Except Abort
      ((Slice (Ptr wire.TxIn) × Slice (Ptr wire.TxOut) × Ptr btcec.PublicKey) × sync.RWMutex) :=
  match r.RWMutex.RLock with
  | .error e => .error e
  | .ok m =>
    afterDeferred ((pubKey r.ourKey).map fun k => (r.ourInputs, r.ourChange, k)) m.Unlock

/-- The method `OurSigs`: `r.RLock()`, `defer r.Unlock()`, `return r.ourSigs`. -/
def ChannelReservation.OurSigs (r : ChannelReservation) :
    Except Abort (Slice (Slice Nat) × sync.RWMutex) :=
  match r.RWMutex.RLock with
  | .error e => .error e
  | .ok m => afterDeferred (.ok r.ourSigs) m.Unlock

/-- The method `TheirFunds`: `r.RLock()`, `defer r.Unlock()`, then
`return r.theirInputs, r.theirChange, r.theirKey`. -/
def ChannelReservation.TheirFunds (r : ChannelReservation) :
    Except Abort
      ((Slice (Ptr wire.TxIn) × Slice (Ptr wire.TxOut) × Ptr btcec.PublicKey) × sync.RWMutex) :=
  match r.RWMutex.RLock with
  | .error e => .error e
  | .ok m => afterDeferred (.ok (r.theirInputs, r.theirChange, r.theirKey)) m.Unlock

/-- The method `FinalFundingTx`: `r.RLock()`, `defer r.Unlock()`,
`return r.completedFundingTx`. -/
def ChannelReservation.FinalFundingTx (r : ChannelReservation) :
    Except Abort (Ptr btcutil.Tx × sync.RWMutex) :=
  match r.RWMutex.RLock with
  | .error e => .error e
  | .ok m => afterDeferred (.ok r.completedFundingTx) m.Unlock

/-- What a read accessor would leave behind if its deferred call were `RUnlock`, the
release matching `RLock`. Used only to compare with what the source defers. -/
def readLockRoundTrip (m : sync.RWMutex) : Except Abort sync.RWMutex :=
  match m.RLock with
  | .error e => .error e
  | .ok m1 => m1.RUnlock

/-- The point a command method reaches: the command `cmd` has been sent into the channel
`queue`, and the method is receiving from the channel `waitsOn`. -/
structure Pending where
  queue : Chan
  cmd : Msg
  waitsOn : Chan
deriving DecidableEq, Repr

/-- The send statement `r.wallet.msgChan <- cmd`: a `nil` wallet pointer panics, a `nil`
channel parks the sender forever, otherwise `cmd` goes into the queue. -/
def sendToWallet (w : Ptr LightningWallet) (cmd : Msg) : Except Abort (Chan × Msg) :=
  match w with
  | none => .error .nilDeref
  | some lw =>
    match lw.msgChan with
    | none => .error .blocksOnNilChan
    | some q => .ok (q, cmd)

/-- The method `AddFunds`, up to the receive `<-errChan`. `fresh` is the channel that
`make(chan error, 1)` returns. The composite literal names four fields and leaves `err`
at its zero value. -/
def ChannelReservation.AddFunds (r : ChannelReservation)
    (theirInputs : Slice (Ptr wire.TxIn)) (theirChangeOutputs : Slice (Ptr wire.TxOut))
    (multiSigKey : Ptr btcec.PublicKey) (fresh : Chan) : Except Abort Pending :=
  let errChan := fresh
  (sendToWallet r.wallet (.addCounterPartyFunds
      { pendingFundingID := r.reservationID
        theirInputs := theirInputs
        theirChangeOutputs := theirChangeOutputs
        theirKey := multiSigKey
        err := none })).map
    fun s => { queue := s.1, cmd := s.2, waitsOn := errChan }

/-- The method `CompleteReservation(reservationID, theirSigs)`, up to the receive
`<-errChan`. `fresh` is the channel that `make(chan error, 1)` returns. -/
def ChannelReservation.CompleteReservation (r : ChannelReservation) (reservationID : Nat)
    (theirSigs : Slice (Slice Nat)) (fresh : Chan) : Except Abort Pending :=
  let errChan := fresh
  (sendToWallet r.wallet (.addCounterPartySigs
      { pendingFundingID := reservationID
        theirSigs := theirSigs
        err := some errChan })).map
    fun s => { queue := s.1, cmd := s.2, waitsOn := errChan }

/-- The method `Cancel(reservationID)`, up to the receive `<-doneChan`. `fresh` is the
channel that `make(chan struct{}, 1)` returns. -/
def ChannelReservation.Cancel (r : ChannelReservation) (reservationID : Nat) (fresh : Chan) :
    Except Abort Pending :=
  let doneChan := fresh
  (sendToWallet r.wallet (.fundingReserveCancel
      { pendingFundingID := reservationID
        done := some doneChan })).map
    fun s => { queue := s.1, cmd := s.2, waitsOn := doneChan }

end wallet

/-! ## Theorems about the channel identifier -/

namespace lnwire

theorem testBit_high {x n k : Nat} (h : x < 2 ^ n) (hk : n ≤ k) : x.testBit k = false :=
  Nat.testBit_lt_two_pow (Nat.lt_of_lt_of_le h (Nat.pow_le_pow_right (by decide) hk))

theorem mask24 : (0xFFFFFF : Nat) = 2 ^ 24 - 1 := by norm_num

theorem pack_testBit (h t o i : Nat) (ht : t < 2 ^ 32) (ho : o < 2 ^ 16) :
    (ChannelID.ToUint64 ⟨h, t, o⟩).testBit i =
      ((decide (40 ≤ i) && decide (i < 64) && h.testBit (i - 40)) ||
        (decide (16 ≤ i) && t.testBit (i - 16)) || o.testBit i) := by
  unfold ChannelID.ToUint64
  simp only [Nat.testBit_or, Nat.testBit_mod_two_pow, Nat.testBit_shiftLeft]
  by_cases a : i < 64
  · have b : i - 40 < 64 := by omega
    have c : i - 16 < 64 := by omega
    simp [a, b, c]
  · have b : t.testBit (i - 16) = false := testBit_high ht (by omega)
    have c : o.testBit i = false := testBit_high ho (by omega)
    simp [a, b, c]
theorem unpack_BlockHeight (h t o : Nat) (ht : t < 2 ^ 32) (ho : o < 2 ^ 16) :
    (NewChanIDFromInt (ChannelID.ToUint64 ⟨h, t, o⟩)).BlockHeight = (h % 2 ^ 24) ||| (t >>> 24) := by
  apply Nat.eq_of_testBit_eq
  intro j
  simp only [NewChanIDFromInt, Nat.testBit_mod_two_pow, Nat.testBit_shiftRight, Nat.testBit_or,
    pack_testBit h t o _ ht ho]
  have e1 : 40 + j - 40 = j := by omega
  have e2 : 40 + j - 16 = 24 + j := by omega
  have e3 : o.testBit (40 + j) = false := testBit_high ho (by omega)
  have e4 : (40 : Nat) ≤ 40 + j := by omega
  have e5 : (16 : Nat) ≤ 40 + j := by omega
  rw [e1, e2, e3]
  by_cases a : j < 24
  · have b : j < 32 := by omega
    have c : 40 + j < 64 := by omega
    simp [a, b, c, e5]
  · have c : ¬ (40 + j < 64) := by omega
    have d : t.testBit (24 + j) = false := testBit_high ht (by omega)
    simp [a, c, d, e4]

theorem unpack_TxIndex (h t o : Nat) (ht : t < 2 ^ 32) (ho : o < 2 ^ 16) :
    (NewChanIDFromInt (ChannelID.ToUint64 ⟨h, t, o⟩)).TxIndex = t % 2 ^ 24 := by
  apply Nat.eq_of_testBit_eq
  intro j
  simp only [NewChanIDFromInt, mask24, Nat.testBit_mod_two_pow, Nat.testBit_shiftRight,
    Nat.testBit_and, Nat.testBit_two_pow_sub_one, pack_testBit h t o _ ht ho]
  have e1 : 16 + j - 16 = j := by omega
  have e3 : o.testBit (16 + j) = false := testBit_high ho (by omega)
  rw [e1, e3]
  by_cases a : j < 24
  · have b : j < 32 := by omega
    have c : ¬ (40 ≤ 16 + j) := by omega
    simp [a, b, c]
  · simp [a]

theorem unpack_TxPosition (h t o : Nat) (ht : t < 2 ^ 32) (ho : o < 2 ^ 16) :
    (NewChanIDFromInt (ChannelID.ToUint64 ⟨h, t, o⟩)).TxPosition = o := by
  apply Nat.eq_of_testBit_eq
  intro j
  simp only [NewChanIDFromInt, Nat.testBit_mod_two_pow, pack_testBit h t o _ ht ho]
  by_cases a : j < 16
  · have b : ¬ (40 ≤ j) := by omega
    have c : ¬ (16 ≤ j) := by omega
    simp [a, b, c]
  · have c : o.testBit j = false := testBit_high ho (by omega)
    simp [a, c]

theorem repack (x : Nat) (hx : x < 2 ^ 64) : (NewChanIDFromInt x).ToUint64 = x := by
  apply Nat.eq_of_testBit_eq
  intro i
  have ht : ((x >>> 16) % 2 ^ 32) &&& 0xFFFFFF < 2 ^ 32 :=
    Nat.lt_of_le_of_lt Nat.and_le_left (Nat.mod_lt _ (by decide))
  have ho : x % 2 ^ 16 < 2 ^ 16 := Nat.mod_lt _ (by decide)
  simp only [NewChanIDFromInt] at ht ⊢
  rw [pack_testBit _ _ _ _ ht ho]
  simp only [mask24, Nat.testBit_mod_two_pow, Nat.testBit_shiftRight,
    Nat.testBit_and, Nat.testBit_two_pow_sub_one]
  by_cases a : i < 16
  · have b : ¬ (40 ≤ i) := by omega
    have c : ¬ (16 ≤ i) := by omega
    simp [a, b, c]
  · by_cases b : i < 40
    · have c : ¬ (40 ≤ i) := by omega
      have d : 16 + (i - 16) = i := by omega
      have e : i - 16 < 32 := by omega
      have f : i - 16 < 24 := by omega
      have g : 16 ≤ i := by omega
      simp [a, c, d, e, f, g]
    · by_cases c : i < 64
      · have d : 40 + (i - 40) = i := by omega
        have e : i - 40 < 32 := by omega
        have f : ¬ (i - 16 < 24) := by omega
        have g : 40 ≤ i := by omega
        simp [a, c, d, e, f, g]
      · have d : x.testBit i = false := testBit_high hx (by omega)
        have f : ¬ (i - 16 < 24) := by omega
        simp [a, c, d, f]
theorem pack_eq_sum (h t o : Nat) (hh : h < 2 ^ 24) (ht : t < 2 ^ 24) (ho : o < 2 ^ 16) :
    ChannelID.ToUint64 ⟨h, t, o⟩ = h * 2 ^ 40 + t * 2 ^ 16 + o := by
  have hb : ((h % 2 ^ 64) <<< 40) % 2 ^ 64 = 2 ^ 40 * h := by
    rw [Nat.shiftLeft_eq]; omega
  have tb : ((t % 2 ^ 64) <<< 16) % 2 ^ 64 = 2 ^ 16 * t := by
    rw [Nat.shiftLeft_eq]; omega
  have ob : o % 2 ^ 64 = o := by omega
  have s1 : 2 ^ 40 * h ||| 2 ^ 16 * t = 2 ^ 40 * h + 2 ^ 16 * t :=
    (Nat.mul_add_lt_is_or (by omega) h).symm
  have s2 : 2 ^ 16 * (2 ^ 24 * h + t) ||| o = 2 ^ 16 * (2 ^ 24 * h + t) + o :=
    (Nat.mul_add_lt_is_or ho _).symm
  have s3 : 2 ^ 40 * h + 2 ^ 16 * t = 2 ^ 16 * (2 ^ 24 * h + t) := by omega
  simp only [ChannelID.ToUint64]
  rw [hb, tb, ob, s1, s3, s2]
  omega

/-- C1: decoding undoes encoding on in-range values. For every ChannelID whose
BlockHeight and TxIndex are below 2^24 and whose TxPosition is a 16-bit value,
NewChanIDFromInt of its ToUint64 is the same ChannelID, field for field. -/
theorem roundtrip_in_range (c : ChannelID) (hh : c.BlockHeight < 2 ^ 24)
    (ht : c.TxIndex < 2 ^ 24) (ho : c.TxPosition < 2 ^ 16) :
    NewChanIDFromInt c.ToUint64 = c := by
  obtain ⟨h, t, o⟩ := c
  simp only at hh ht ho
  have ht32 : t < 2 ^ 32 := by omega
  have e1 := unpack_BlockHeight h t o ht32 ho
  have e2 := unpack_TxIndex h t o ht32 ho
  have e3 := unpack_TxPosition h t o ht32 ho
  have z : t >>> 24 = 0 := by rw [Nat.shiftRight_eq_div_pow]; omega
  rw [z, Nat.or_zero] at e1
  have r : NewChanIDFromInt (ChannelID.ToUint64 ⟨h, t, o⟩) =
      ⟨(NewChanIDFromInt (ChannelID.ToUint64 ⟨h, t, o⟩)).BlockHeight,
        (NewChanIDFromInt (ChannelID.ToUint64 ⟨h, t, o⟩)).TxIndex,
        (NewChanIDFromInt (ChannelID.ToUint64 ⟨h, t, o⟩)).TxPosition⟩ := rfl
  rw [r, e1, e2, e3]
  congr 1 <;> omega

/-- The round trip of C1 at block height 700000, transaction index 1234, output 5. -/
theorem roundtrip_in_range_witness :
    NewChanIDFromInt (ChannelID.ToUint64 ⟨700000, 1234, 5⟩) = ⟨700000, 1234, 5⟩ :=
  roundtrip_in_range ⟨700000, 1234, 5⟩ (by decide) (by decide) (by decide)

/-- C2: packing layout. For every ChannelID whose BlockHeight and TxIndex are below 2^24
(TxPosition a 16-bit value), ToUint64 equals BlockHeight * 2^40 + TxIndex * 2^16 +
TxPosition: bits 63-40 hold BlockHeight, bits 39-16 TxIndex, bits 15-0 TxPosition. -/
theorem ToUint64_layout (c : ChannelID) (hh : c.BlockHeight < 2 ^ 24)
    (ht : c.TxIndex < 2 ^ 24) (ho : c.TxPosition < 2 ^ 16) :
    c.ToUint64 = c.BlockHeight * 2 ^ 40 + c.TxIndex * 2 ^ 16 + c.TxPosition ∧
      c.ToUint64 >>> 40 = c.BlockHeight ∧
      (c.ToUint64 >>> 16) % 2 ^ 24 = c.TxIndex ∧
      c.ToUint64 % 2 ^ 16 = c.TxPosition := by
  obtain ⟨h, t, o⟩ := c
  simp only at hh ht ho
  rw [pack_eq_sum h t o hh ht ho]
  simp only [Nat.shiftRight_eq_div_pow]
  refine ⟨trivial, ?_, ?_, ?_⟩ <;> omega

/-- The layout of C2 at block height 1, transaction index 2, output 3. -/
theorem ToUint64_layout_witness :
    ChannelID.ToUint64 ⟨1, 2, 3⟩ = 1 * 2 ^ 40 + 2 * 2 ^ 16 + 3 ∧
      ChannelID.ToUint64 ⟨1, 2, 3⟩ >>> 40 = 1 ∧
      (ChannelID.ToUint64 ⟨1, 2, 3⟩ >>> 16) % 2 ^ 24 = 2 ∧
      ChannelID.ToUint64 ⟨1, 2, 3⟩ % 2 ^ 16 = 3 :=
  ToUint64_layout ⟨1, 2, 3⟩ (by decide) (by decide) (by decide)

/-- C3: decoding always succeeds and is inverted by encoding. NewChanIDFromInt is a total
function, and for every 64-bit unsigned integer x, the ToUint64 of NewChanIDFromInt x
is x; the decoded fields are in the documented range. -/
theorem ToUint64_NewChanIDFromInt (x : Nat) (hx : x < 2 ^ 64) :
    (NewChanIDFromInt x).ToUint64 = x ∧ (NewChanIDFromInt x).InRange := by
  refine ⟨repack x hx, ?_, ?_, ?_⟩
  · simp only [NewChanIDFromInt, Nat.shiftRight_eq_div_pow]
    omega
  · simp only [NewChanIDFromInt, mask24, Nat.and_pow_two_sub_one_eq_mod]
    omega
  · simp only [NewChanIDFromInt]
    omega

/-- The round trip of C3 at the largest 64-bit value. -/
theorem ToUint64_NewChanIDFromInt_witness :
    (NewChanIDFromInt 18446744073709551615).ToUint64 = 18446744073709551615 ∧
      (NewChanIDFromInt 18446744073709551615).InRange :=
  ToUint64_NewChanIDFromInt 18446744073709551615 (by decide)

/-- C8, as stated, fails: with BlockHeight 0, TxIndex 2^24 and TxPosition 0 the decoded
BlockHeight is 1, not 0 mod 2^24, so the over-wide TxIndex has altered BlockHeight. -/
theorem overwide_TxIndex_alters_BlockHeight :
    (NewChanIDFromInt (ChannelID.ToUint64 ⟨0, 16777216, 0⟩)).BlockHeight = 1 ∧
      (NewChanIDFromInt (ChannelID.ToUint64 ⟨0, 16777216, 0⟩)).BlockHeight ≠ 0 % 2 ^ 24 := by
  decide

/-- C8, amended: for every ChannelID (any uint32 BlockHeight and TxIndex, any uint16
TxPosition), NewChanIDFromInt of its ToUint64 has TxIndex = TxIndex mod 2^24,
TxPosition unchanged, and BlockHeight = (BlockHeight mod 2^24) bitwise-or
(TxIndex / 2^24). An over-wide BlockHeight loses only its own high bits; the high
byte of an over-wide TxIndex is or-ed into the low byte of BlockHeight, and
BlockHeight = BlockHeight mod 2^24 whenever TxIndex is below 2^24. -/
theorem roundtrip_truncates (c : ChannelID) (hc : c.Valid) :
    (NewChanIDFromInt c.ToUint64).BlockHeight
        = (c.BlockHeight % 2 ^ 24) ||| (c.TxIndex / 2 ^ 24) ∧
      (NewChanIDFromInt c.ToUint64).TxIndex = c.TxIndex % 2 ^ 24 ∧
      (NewChanIDFromInt c.ToUint64).TxPosition = c.TxPosition ∧
      (c.TxIndex < 2 ^ 24 →
        (NewChanIDFromInt c.ToUint64).BlockHeight = c.BlockHeight % 2 ^ 24) := by
  obtain ⟨h, t, o⟩ := c
  obtain ⟨_, ht, ho⟩ := hc
  simp only at ht ho
  have e1 := unpack_BlockHeight h t o ht ho
  rw [Nat.shiftRight_eq_div_pow] at e1
  refine ⟨e1, unpack_TxIndex h t o ht ho, unpack_TxPosition h t o ht ho, ?_⟩
  intro hlt
  simp only at hlt
  have z : t / 2 ^ 24 = 0 := by omega
  rw [e1, z, Nat.or_zero]

/-- The amended C8 at the largest values the field types admit. -/
theorem roundtrip_truncates_witness :
    (NewChanIDFromInt (ChannelID.ToUint64 ⟨4294967295, 4294967295, 65535⟩)).BlockHeight
        = (4294967295 % 2 ^ 24) ||| (4294967295 / 2 ^ 24) ∧
      (NewChanIDFromInt (ChannelID.ToUint64 ⟨4294967295, 4294967295, 65535⟩)).TxIndex
        = 4294967295 % 2 ^ 24 ∧
      (NewChanIDFromInt (ChannelID.ToUint64 ⟨4294967295, 4294967295, 65535⟩)).TxPosition
        = 65535 ∧
      (4294967295 < 2 ^ 24 →
        (NewChanIDFromInt (ChannelID.ToUint64 ⟨4294967295, 4294967295, 65535⟩)).BlockHeight
          = 4294967295 % 2 ^ 24) :=
  roundtrip_truncates ⟨4294967295, 4294967295, 65535⟩
    ⟨by decide, by decide, by decide⟩

/-- C10: the compact encoding preserves chain order. For in-range ChannelIDs a and b,
a.ToUint64 < b.ToUint64 exactly when (BlockHeight, TxIndex, TxPosition) of a is
lexicographically smaller than that of b; and ToUint64 is injective on in-range
ChannelIDs. -/
theorem ToUint64_order (a b : ChannelID) (ha : a.InRange) (hb : b.InRange) :
    (a.ToUint64 < b.ToUint64 ↔ a.lexLt b) ∧ (a.ToUint64 = b.ToUint64 → a = b) := by
  obtain ⟨ah, at_, ao⟩ := a
  obtain ⟨bh, bt, bo⟩ := b
  obtain ⟨h1, h2, h3⟩ := ha
  obtain ⟨h4, h5, h6⟩ := hb
  simp only at h1 h2 h3 h4 h5 h6
  rw [pack_eq_sum _ _ _ h1 h2 h3, pack_eq_sum _ _ _ h4 h5 h6]
  simp only [ChannelID.lexLt, ChannelID.mk.injEq]
  constructor
  · constructor
    · intro h; omega
    · intro h; omega
  · intro h; omega

/-- The order statement of C10 for two outputs of one transaction. -/
theorem ToUint64_order_witness :
    (ChannelID.ToUint64 ⟨9, 16777215, 65535⟩ < ChannelID.ToUint64 ⟨10, 0, 0⟩ ↔
        ChannelID.lexLt ⟨9, 16777215, 65535⟩ ⟨10, 0, 0⟩) ∧
      (ChannelID.ToUint64 ⟨9, 16777215, 65535⟩ = ChannelID.ToUint64 ⟨10, 0, 0⟩ →
        (⟨9, 16777215, 65535⟩ : ChannelID) = ⟨10, 0, 0⟩) :=
  ToUint64_order ⟨9, 16777215, 65535⟩ ⟨10, 0, 0⟩
    ⟨by decide, by decide, by decide⟩ ⟨by decide, by decide, by decide⟩

end lnwire

/-! ## Theorems about the channel reservation -/

namespace wallet

/-- A read share taken on a lock no writer holds, followed by the write-unlock, aborts
with the unlock-of-unlocked run-time error. -/
theorem RLock_then_Unlock (m : sync.RWMutex) {m1 : sync.RWMutex} (h : m.RLock = .ok m1) :
    m1.Unlock = .error .unlockOfUnlocked := by
  unfold sync.RWMutex.RLock at h
  by_cases w : m.writer = true
  · simp [w] at h
  · simp only [w] at h
    cases h
    simp [sync.RWMutex.Unlock, w]

/-- A function body whose deferred call aborts does not return. -/
theorem afterDeferred_error {α : Type} (operands : Except Abort α) (e : Abort) :
    afterDeferred operands (.error e) = .error e := by
  cases operands <;> rfl

/-- Every read accessor has the shape: take the read share, evaluate the operands, run
the deferred write-unlock. Whatever the operands are, the call ends in an abort that
depends only on whether a writer holds the lock. -/
theorem accessor_shape {α : Type} (m : sync.RWMutex) (operands : Except Abort α) :
    (match m.RLock with
      | .error e => Except.error e
      | .ok m1 => afterDeferred operands m1.Unlock)
      = .error (if m.writer then Abort.blocksOnRLock else Abort.unlockOfUnlocked) := by
  cases h : m.RLock with
  | error e =>
    unfold sync.RWMutex.RLock at h
    by_cases w : m.writer = true
    · simp only [w, if_true] at h ⊢
      cases h
      rfl
    · simp [w] at h
  | ok m1 =>
    have hu := RLock_then_Unlock m h
    unfold sync.RWMutex.RLock at h
    by_cases w : m.writer = true
    · simp [w] at h
    · simp only [hu, afterDeferred_error]
      simp [w]

/-- C4: for a reservation whose wallet has a live command queue q, AddFunds sends a
command whose response channel is nil and then waits on the channel it has just made,
which nobody else holds; CompleteReservation and Cancel send a command that carries the
very channel they then wait on. -/
theorem AddFunds_command_lacks_reply_channel (r : ChannelReservation)
    (theirInputs : Slice (Ptr wire.TxIn)) (theirChangeOutputs : Slice (Ptr wire.TxOut))
    (multiSigKey : Ptr btcec.PublicKey) (reservationID : Nat) (theirSigs : Slice (Slice Nat))
    (q fresh : Chan) :
    (ChannelReservation.AddFunds { r with wallet := some { msgChan := some q } }
        theirInputs theirChangeOutputs multiSigKey fresh).map
        (fun p => (p.queue, p.cmd.replyChan, p.waitsOn)) = .ok (q, none, fresh) ∧
      (ChannelReservation.CompleteReservation { r with wallet := some { msgChan := some q } }
        reservationID theirSigs fresh).map
        (fun p => (p.queue, p.cmd.replyChan, p.waitsOn)) = .ok (q, some fresh, fresh) ∧
      (ChannelReservation.Cancel { r with wallet := some { msgChan := some q } }
        reservationID fresh).map
        (fun p => (p.queue, p.cmd.replyChan, p.waitsOn)) = .ok (q, some fresh, fresh) :=
  ⟨rfl, rfl, rfl⟩

/-- C5, as stated, fails: on the reservation with identifier 1, CompleteReservation and
Cancel called with the argument 2 send a command addressed to 2, not to 1. -/
theorem command_id_is_the_argument :
    (newChannelReservation 0 0 0 (some { msgChan := some 0 }) 1).reservationID = 1 ∧
      ((newChannelReservation 0 0 0 (some { msgChan := some 0 }) 1).CompleteReservation
        2 none 7).map (fun p => p.cmd.pendingFundingID) = .ok 2 ∧
      ((newChannelReservation 0 0 0 (some { msgChan := some 0 }) 1).Cancel
        2 7).map (fun p => p.cmd.pendingFundingID) = .ok 2 ∧
      ((newChannelReservation 0 0 0 (some { msgChan := some 0 }) 1).CompleteReservation
        2 none 7).map (fun p => p.cmd.pendingFundingID)
        ≠ .ok (newChannelReservation 0 0 0 (some { msgChan := some 0 }) 1).reservationID := by
  refine ⟨rfl, rfl, rfl, ?_⟩
  intro h
  cases h

/-- C5, amended: for every reservation r whose wallet has a live command queue, the
command sent by r.AddFunds has pendingFundingID equal to r.reservationID, and the command
sent by r.CompleteReservation and by r.Cancel has pendingFundingID equal to the
reservationID argument of the call. -/
theorem command_pendingFundingID (r : ChannelReservation) (w : LightningWallet) (q : Chan)
    (theirInputs : Slice (Ptr wire.TxIn)) (theirChangeOutputs : Slice (Ptr wire.TxOut))
    (multiSigKey : Ptr btcec.PublicKey) (reservationID : Nat) (theirSigs : Slice (Slice Nat))
    (fresh : Chan) (hw : r.wallet = some w) (hq : w.msgChan = some q) :
    (r.AddFunds theirInputs theirChangeOutputs multiSigKey fresh).map
        (fun p => p.cmd.pendingFundingID) = .ok r.reservationID ∧
      (r.CompleteReservation reservationID theirSigs fresh).map
        (fun p => p.cmd.pendingFundingID) = .ok reservationID ∧
      (r.Cancel reservationID fresh).map
        (fun p => p.cmd.pendingFundingID) = .ok reservationID := by
  simp only [ChannelReservation.AddFunds, ChannelReservation.CompleteReservation,
    ChannelReservation.Cancel, sendToWallet, hw, hq]
  exact ⟨rfl, rfl, rfl⟩

/-- The amended C5 on the reservation with identifier 1, called with the argument 2. -/
theorem command_pendingFundingID_witness :
    ((newChannelReservation 0 0 0 (some { msgChan := some 0 }) 1).AddFunds
        none none none 7).map (fun p => p.cmd.pendingFundingID)
        = .ok (newChannelReservation 0 0 0 (some { msgChan := some 0 }) 1).reservationID ∧
      ((newChannelReservation 0 0 0 (some { msgChan := some 0 }) 1).CompleteReservation
        2 none 7).map (fun p => p.cmd.pendingFundingID) = .ok 2 ∧
      ((newChannelReservation 0 0 0 (some { msgChan := some 0 }) 1).Cancel
        2 7).map (fun p => p.cmd.pendingFundingID) = .ok 2 :=
  command_pendingFundingID (newChannelReservation 0 0 0 (some { msgChan := some 0 }) 1)
    { msgChan := some 0 } 0 none none none 2 none 7 rfl rfl

/-- C6: no read accessor restores the lock state. Each of OurFunds, TheirFunds, OurSigs
and FinalFundingTx takes the read share and defers the write-unlock, so on every
reservation the call aborts: parked in RLock when a writer holds the lock, and otherwise
with the run-time error of releasing a write lock that is not held. Releasing with the
matching RUnlock would have restored the state. -/
theorem read_accessors_release_write_lock
    (pubKey : Ptr btcec.PrivateKey → Except Abort (Ptr btcec.PublicKey))
    (r : ChannelReservation) :
    r.OurFunds pubKey
        = .error (if r.RWMutex.writer then Abort.blocksOnRLock else Abort.unlockOfUnlocked) ∧
      r.TheirFunds
        = .error (if r.RWMutex.writer then Abort.blocksOnRLock else Abort.unlockOfUnlocked) ∧
      r.OurSigs
        = .error (if r.RWMutex.writer then Abort.blocksOnRLock else Abort.unlockOfUnlocked) ∧
      r.FinalFundingTx
        = .error (if r.RWMutex.writer then Abort.blocksOnRLock else Abort.unlockOfUnlocked) ∧
      readLockRoundTrip r.RWMutex
        = (if r.RWMutex.writer then .error Abort.blocksOnRLock else .ok r.RWMutex) := by
  refine ⟨accessor_shape _ _, accessor_shape _ _, accessor_shape _ _, accessor_shape _ _, ?_⟩
  unfold readLockRoundTrip sync.RWMutex.RLock
  cases r.RWMutex with
  | mk n w =>
    cases w
    · simp [sync.RWMutex.RUnlock]
    · simp

/-- C7: on a fresh reservation from newChannelReservation, whatever its arguments and
whatever the external PubKey does on a nil key, none of OurFunds, TheirFunds, OurSigs
and FinalFundingTx returns: each aborts with the unlock-of-unlocked run-time error. -/
theorem fresh_reservation_accessors_abort
    (pubKey : Ptr btcec.PrivateKey → Except Abort (Ptr btcec.PublicKey))
    (t : FundingType) (fundingAmt minFeeRate : Int) (wallet : Ptr LightningWallet) (id : Nat) :
    (newChannelReservation t fundingAmt minFeeRate wallet id).OurFunds pubKey
        = .error .unlockOfUnlocked ∧
      (newChannelReservation t fundingAmt minFeeRate wallet id).TheirFunds
        = .error .unlockOfUnlocked ∧
      (newChannelReservation t fundingAmt minFeeRate wallet id).OurSigs
        = .error .unlockOfUnlocked ∧
      (newChannelReservation t fundingAmt minFeeRate wallet id).FinalFundingTx
        = .error .unlockOfUnlocked := by
  refine ⟨?_, rfl, rfl, rfl⟩
  exact (accessor_shape sync.RWMutex.zero
    ((pubKey none).map fun k =>
      ((none : Slice (Ptr wire.TxIn)), (none : Slice (Ptr wire.TxOut)), k))).trans rfl

/-- C9: on a fresh reservation the completedFundingTx field is nil, yet FinalFundingTx
does not return it: the deferred write-unlock aborts the call. -/
theorem fresh_FinalFundingTx_aborts
    (t : FundingType) (fundingAmt minFeeRate : Int) (wallet : Ptr LightningWallet) (id : Nat) :
    (newChannelReservation t fundingAmt minFeeRate wallet id).completedFundingTx = none ∧
      (newChannelReservation t fundingAmt minFeeRate wallet id).FinalFundingTx
        = .error .unlockOfUnlocked :=
  ⟨rfl, rfl⟩

end wallet
